import Mathlib

/-!
Verification of the CTU dataset metadata harvester (`lim/ctu13.py`).

The development shallowly embeds the parts of `CTU_Dataset` that the claims
concern: the scenario-page parser `record_scenario_metadata`, the cache
logic `cache_expired` / `read_cache` / `write_cache`, the landing-page
scraper `get_scenarios`, the constructor's group validation, the query
facade `get_metadata`, and a small transition system for the
semaphore-gated concurrent fetches.

Python values that can appear in a scenario record (strings, booleans and
`None`) are modelled by `Val`; Python dictionaries by insertion-ordered
association lists with first-key lookup and in-place update; Python
exceptions by an `Except PyErr` result.
-/

namespace Ctu13

/-- Python exceptions that the embedded code can raise. -/
inductive PyErr
  | keyError (k : String)
  | valueError
  | typeError
  | indexError
  | attributeError
  deriving DecidableEq, Repr

/-- A Python value stored in a scenario record: a string, a boolean
(`_SUCCESS`), or `None` (the absent-field marker in query rows). -/
inductive Val
  | str (s : String)
  | bool (b : Bool)
  | null
  deriving DecidableEq, Repr

/-- Python truthiness of a `Val` (used by `not attributes['_SUCCESS']`). -/
def truthy : Val → Bool
  | .str s => s ≠ ""
  | .bool b => b
  | .null => false

/-- A Python dict with string keys, modelled as an insertion-ordered
association list (keys are unique in every dict the code builds). -/
abbrev Attrs := List (String × Val)

/-- Dict lookup: first matching key. -/
def getA (a : Attrs) (k : String) : Option Val :=
  match a with
  | [] => Option.none
  | (k1, v) :: t => if k1 = k then some v else getA t k

/-- Dict assignment `d[k] = v`: replace in place if the key exists,
otherwise append at the end (Python insertion order). -/
def setA (a : Attrs) (k : String) (v : Val) : Attrs :=
  match a with
  | [] => [(k, v)]
  | (k1, v1) :: t => if k1 = k then (k, v) :: t else (k1, v1) :: setA t k v

/-- `d[k]`: dict item access, raising `KeyError` when the key is absent. -/
def getItem (a : Attrs) (k : String) : Except PyErr Val :=
  match getA a k with
  | some v => .ok v
  | Option.none => .error (.keyError k)

/-- The in-memory metadata store `self.scenarios`: an ordered mapping from
scenario name to its record. -/
abbrev Store := List (String × Attrs)

theorem getA_setA_self (a : Attrs) (k : String) (v : Val) :
    getA (setA a k v) k = some v := by
  induction a with
  | nil => simp [setA, getA]
  | cons h t ih =>
    obtain ⟨k1, v1⟩ := h
    by_cases hk : k1 = k
    · simp [setA, hk, getA]
    · simp [setA, hk, getA, ih]

theorem getA_setA_ne (a : Attrs) (k k2 : String) (v : Val) (h : k2 ≠ k) :
    getA (setA a k v) k2 = getA a k2 := by
  induction a with
  | nil => simp [setA, getA, Ne.symm h]
  | cons hd t ih =>
    obtain ⟨k1, v1⟩ := hd
    by_cases hk : k1 = k
    · subst hk
      simp [setA, getA, Ne.symm h]
    · simp [setA, hk, getA, ih]

/-- `needle` occurs as a contiguous substring of `hay` (char-list level). -/
def subOf (needle : List Char) : List Char → Bool
  | [] => needle.isEmpty
  | c :: t => needle.isPrefixOf (c :: t) || subOf needle t

/-- Python `needle in hay` for strings: substring containment. -/
def strContains (hay needle : String) : Bool :=
  subOf needle.data hay.data

/-- Python `s.split(sep)` for a one-character separator (the only kind the
code uses), at the character-list level. -/
def splitChar (c : Char) : List Char → List (List Char)
  | [] => [[]]
  | x :: t =>
    let r := splitChar c t
    if x = c then [] :: r
    else
      match r with
      | h :: t2 => (x :: h) :: t2
      | [] => [[x]]

/-- Python `s.split(sep)` for a one-character separator. -/
def pySplit (s : String) (c : Char) : List String :=
  (splitChar c s.data).map String.mk

/-- Python `str.upper` (the scraped labels are ASCII). -/
def pyUpper (s : String) : String :=
  String.mk (s.data.map Char.toUpper)

/-- Python `str.lower` (the compared names are ASCII). -/
def pyLower (s : String) : String :=
  String.mk (s.data.map Char.toLower)

/-- The ASCII whitespace stripped by Python `str.strip()`. -/
def pySpace (c : Char) : Bool :=
  c = ' ' ∨ c = '\t' ∨ c = '\n' ∨ c = '\r' ∨ c = '\x0b' ∨ c = '\x0c'

/-- Python `str.strip()`. -/
def pyStrip (s : String) : String :=
  String.mk (((s.data.dropWhile pySpace).reverse.dropWhile pySpace).reverse)

/-- Python `s.replace(a, b)` for one-character arguments. -/
def pyReplaceChar (s : String) (a b : Char) : String :=
  String.mk (s.data.map (fun c => if c = a then b else c))

/-- Python `s.startswith(p)`. -/
def pyStartsWith (s p : String) : Bool :=
  p.data.isPrefixOf s.data

/-- Python `s.endswith(p)`. -/
def pyEndsWith (s p : String) : Bool :=
  p.data.reverse.isPrefixOf s.data.reverse

/-! ### Module-level constants of `ctu13.py` -/

/-- `__GROUPS__`: the keys of `__DATASETS_URLS__`, in insertion order. -/
def GROUPS : List String := ["ctu13", "mixed", "normal", "malware"]

/-- `CTU_Dataset.__NETFLOW_DATA_DIR__`. -/
def NETFLOW_DATA_DIR : String := "detailed-bidirectional-flow-labels/"

/-- `CTU_Dataset.__CACHE_TIMEOUT__ = 60 * 60 * 24 * 7` seconds. -/
def CACHE_TIMEOUT : Int := 60 * 60 * 24 * 7

/-- `CTU_Dataset.__COLUMNS__`: the default column schema. -/
def CTU_COLUMNS : List String :=
  ["SCENARIO", "GROUP", "SCENARIO_URL", "PROBABLE_NAME", "ZIP",
   "MD5", "SHA1", "SHA256", "LABELED", "BINETFLOW", "PCAP"]

/-! ### Scenario page parser (`record_scenario_metadata`)

`BeautifulSoup` is an external library; its parsed view of a page is taken
as input: `Soup.textLines` stands for `soup.text.splitlines()` and
`Soup.anchors` for the `href` attribute of each element of
`soup.findAll('a')` (`Option.none` for an anchor lacking the attribute).
For a plain-text page without markup, `soup.text` is the page itself. -/

structure Soup where
  textLines : List String
  anchors : List (Option String)
  deriving DecidableEq, Repr

/-- Last index of `c` in `cs`, i.e. Python `str.rfind` (as an option). -/
def rfindIdx (cs : List Char) (c : Char) : Option Nat :=
  match cs with
  | [] => Option.none
  | x :: t =>
    match rfindIdx t c with
    | some i => some (i + 1)
    | Option.none => if x = c then some 0 else Option.none

/-- `os.path.splitext` (POSIX): split off the extension starting at the
last `.` of the final path component, unless every character of that
component before the dot is itself a dot (so `.bashrc` has no extension). -/
def splitext (p : String) : String × String :=
  let cs := p.data
  let dirBase : List Char × List Char :=
    match rfindIdx cs '/' with
    | some i => (cs.take (i + 1), cs.drop (i + 1))
    | Option.none => ([], cs)
  match rfindIdx dirBase.2 '.' with
  | Option.none => (p, "")
  | some d =>
    if (dirBase.2.take d).all (fun ch => ch = '.') then (p, "")
    else (String.mk (dirBase.1 ++ dirBase.2.take d), String.mk (dirBase.2.drop d))

/-- Derive the scenario name from the URL:
`url_parts = url.split('/'); url_parts[url_parts.index('publicDatasets')+1]`.
`list.index` raises `ValueError` when absent; the subscript raises
`IndexError` when out of range. -/
def deriveName (url : String) : Except PyErr String :=
  let parts := pySplit url '/'
  match parts.findIdx? (fun s => s = "publicDatasets") with
  | Option.none => .error .valueError
  | some i =>
    match parts.get? (i + 1) with
    | Option.none => .error .indexError
    | some nm => .ok nm

/-- Scan of the netflow subpage's anchors:
`for item in subsoup.findAll('a'): if item['href'].endswith('.binetflow'): ...; break`.
`item['href']` is unguarded here, so an anchor without `href` raises
`KeyError` (when reached before a match). The first match wins. -/
def findBinetflow : List (Option String) → Except PyErr (Option String)
  | [] => .ok Option.none
  | Option.none :: _ => .error (.keyError "href")
  | some h :: rest =>
    if pyEndsWith h ".binetflow" then .ok (some h) else findBinetflow rest

/-- The `":" in line and line != ":"` branch:
`(_k, _v) = line.split(':')` succeeds only when the line has exactly one
colon (otherwise `ValueError`, caught and passed); the label is upper-cased
with spaces replaced by underscores and, when it is a recognized column,
the stripped value is stored. -/
def colonUpdate (cols : List String) (attrs : Attrs) (line : String) : Attrs :=
  if strContains line ":" ∧ line ≠ ":" then
    match pySplit line ':' with
    | [k, v] =>
      if cols.contains (pyReplaceChar (pyUpper k) ' ' '_') then
        setA attrs (pyReplaceChar (pyUpper k) ' ' '_') (Val.str (pyStrip v))
      else attrs
    | _ => attrs
  else attrs

/-- One iteration of the `for line in soup.text.splitlines()` loop: the
netflow-subpage branch (which re-fetches `url + __NETFLOW_DATA_DIR__`,
modelled by the fixed `subAnchors` environment) followed by the
label/value branch. -/
def processLine (cols : List String) (subAnchors : List (Option String))
    (attrs : Attrs) (line : String) : Except PyErr Attrs :=
  let step1 : Except PyErr Attrs :=
    if strContains line NETFLOW_DATA_DIR then
      match findBinetflow subAnchors with
      | .error e => .error e
      | .ok (some h) => .ok (setA attrs "BINETFLOW" (Val.str (NETFLOW_DATA_DIR ++ h)))
      | .ok Option.none => .ok attrs
    else .ok attrs
  match step1 with
  | .error e => .error e
  | .ok a1 => .ok (colonUpdate cols a1 line)

/-- The whole line loop. -/
def processLines (cols : List String) (subAnchors : List (Option String))
    (attrs : Attrs) : List String → Except PyErr Attrs
  | [] => .ok attrs
  | line :: rest =>
    match processLine cols subAnchors attrs line with
    | .error e => .error e
    | .ok a1 => processLines cols subAnchors a1 rest

/-- `href_ext = os.path.splitext(href)[-1][1:].upper()` for one anchor,
where a missing `href` attribute has become `''` via the caught
`KeyError`. -/
def hrefExt (anchor : Option String) : String :=
  pyUpper (String.mk ((splitext (anchor.getD "")).2.data.drop 1))

/-- One iteration of the `for item in soup.findAll('a')` loop: query-only
hrefs are skipped, and an href whose upper-cased extension is a recognized
column sets that column to the href. -/
def extUpdate (cols : List String) (attrs : Attrs) (anchor : Option String) : Attrs :=
  if pyStartsWith (anchor.getD "") "?" then attrs
  else if hrefExt anchor = "" then attrs
  else if cols.contains (hrefExt anchor) then
    setA attrs (hrefExt anchor) (Val.str (anchor.getD ""))
  else attrs

/-- `CTU_Dataset.record_scenario_metadata`, as a function of the fetched
page text and the soup views of the page and of the netflow subpage.
`prev` is the prior record under this scenario name (an empty dict is
created when there is none). The returned pair is the scenario name and
the record left in `self.scenarios[name]`. -/
def record_scenario_metadata (cols : List String) (prev : Option Attrs)
    (group url page : String) (soup : Soup)
    (subAnchors : List (Option String)) : Except PyErr (String × Attrs) :=
  match deriveName url with
  | .error e => .error e
  | .ok name =>
    let a0 := prev.getD []
    let a1 := setA a0 "GROUP" (Val.str group)
    let a2 := setA a1 "URL" (Val.str url)
    let a3 := setA a2 "_PAGE" (Val.str page)
    let success := (!(page == "")) && (!(strContains page "Not Found"))
    let a4 := setA a3 "_SUCCESS" (Val.bool success)
    match processLines cols subAnchors a4 soup.textLines with
    | .error e => .error e
    | .ok a5 => .ok (name, soup.anchors.foldl (extUpdate cols) a5)

/-! ### Cache manager (`cache_expired`, `read_cache`, `write_cache`)

The cache file is modelled by the two things the code inspects: its
`os.stat` results (size in bytes, modification time) and its parsed JSON
content. Times are integers (seconds). -/

/-- The `os.stat` results the code reads: `st_size` and `st_mtime`. -/
structure FileStat where
  size : Nat
  mtime : Int
  deriving DecidableEq, Repr

/-- `CTU_Dataset.cache_expired(cache_timeout)`, as a function of the
present cache file (`Option.none` = `FileNotFoundError`) and the current
time. Returns the boolean result together with the cache file afterwards
(`delete_cache` removes an empty file). Note the timeout compared against
is the *argument* `cache_timeout`; the stat results are taken before the
deletion, so the age test still runs on a deleted empty file. -/
def cache_expired (file : Option FileStat) (now : Int) (cache_timeout : Int) :
    Bool × Option FileStat :=
  match file with
  | Option.none => (true, Option.none)
  | some st =>
    let file1 := if st.size = 0 then Option.none else some st
    let age := now - st.mtime
    if age ≤ cache_timeout then (false, file1) else (true, file1)

/-- The call `self.cache_expired()` made by `load_ctu_metadata` and
`read_cache`: no argument is passed, so the parameter default
`__CACHE_TIMEOUT__` is used — the constructor's `cache_timeout`
(`selfCacheTimeout` here) never reaches the comparison. -/
def cacheExpiredNoArg (_selfCacheTimeout : Int) (file : Option FileStat)
    (now : Int) : Bool × Option FileStat :=
  cache_expired file now CACHE_TIMEOUT

/-! JSON values, as written by `json.dump` and reread by `json.load`.
Numbers never occur in the cache (records hold strings, booleans and
`None`), so they are omitted. The file content is modelled at the
parsed-JSON level: `json.dump` followed by `json.load` transports these
value types faithfully. -/

inductive Json
  | null
  | bool (b : Bool)
  | str (s : String)
  | arr (xs : List Json)
  | obj (kvs : List (String × Json))

/-- Abstract stand-in for the on-disk byte size of the serialized value.
The cache logic only ever compares `st_size` against zero; `json.dump`
output is never empty (an object serializes to at least two bytes), and
this stand-in preserves exactly that. -/
def dumpSize : Json → Nat
  | .null => 4
  | .bool b => cond b 4 5
  | .str s => s.length + 2
  | .arr xs => xs.length + 2
  | .obj kvs => kvs.length + 2

/-- First value under key `k` in a JSON object's fields. -/
def jsonLookup (kvs : List (String × Json)) (k : String) : Option Json :=
  match kvs with
  | [] => Option.none
  | (k1, v) :: t => if k1 = k then some v else jsonLookup t k

/-- A cache file on disk: modification time plus parsed content. -/
structure CacheFile where
  mtime : Int
  data : Json

/-- The stat results of a cache file. -/
def fileStatOf (f : CacheFile) : FileStat :=
  ⟨dumpSize f.data, f.mtime⟩

/-- Encoding of a scenario record's values into JSON. -/
def valToJson : Val → Json
  | .str s => .str s
  | .bool b => .bool b
  | .null => .null

/-- Encoding of one scenario record. -/
def attrsToJson (a : Attrs) : Json :=
  .obj (a.map (fun kv => (kv.1, valToJson kv.2)))

/-- Encoding of `self.scenarios`. -/
def storeToJson (st : Store) : Json :=
  .obj (st.map (fun na => (na.1, attrsToJson na.2)))

/-- Encoding of `self.columns`. -/
def colsToJson (cs : List String) : Json :=
  .arr (cs.map .str)

/-- Decoding of a record value (partial inverse of `valToJson`). -/
def valOfJson : Json → Option Val
  | .str s => some (Val.str s)
  | .bool b => some (Val.bool b)
  | .null => some Val.null
  | _ => Option.none

/-- Decoding of one scenario record. -/
def attrsOfJson : Json → Option Attrs
  | .obj kvs => attrsOfJsonList kvs
  | _ => Option.none
where
  attrsOfJsonList : List (String × Json) → Option Attrs
    | [] => some []
    | (k, j) :: t =>
      match valOfJson j, attrsOfJsonList t with
      | some v, some rest => some ((k, v) :: rest)
      | _, _ => Option.none

/-- Decoding of a persisted store. -/
def storeOfJson : Json → Option Store
  | .obj kvs => storeOfJsonList kvs
  | _ => Option.none
where
  storeOfJsonList : List (String × Json) → Option Store
    | [] => some []
    | (n, j) :: t =>
      match attrsOfJson j, storeOfJsonList t with
      | some a, some rest => some ((n, a) :: rest)
      | _, _ => Option.none

/-- Decoding of a persisted column schema. -/
def colsOfJson : Json → Option (List String)
  | .arr xs => colsOfJsonList xs
  | _ => Option.none
where
  colsOfJsonList : List Json → Option (List String)
    | [] => some []
    | .str s :: t =>
      match colsOfJsonList t with
      | some rest => some (s :: rest)
      | Option.none => Option.none
    | _ => Option.none

/-- `CTU_Dataset.write_cache`: dump `scenarios` and `columns` (in that
key order) to the cache file, whose modification time becomes the write
time. -/
def write_cache (scenarios : Store) (columns : List String) (now : Int) :
    CacheFile :=
  ⟨now, .obj [("scenarios", storeToJson scenarios), ("columns", colsToJson columns)]⟩

/-- `CTU_Dataset.read_cache`: when `self.cache_expired()` is false, load
the file and take `_cache['scenarios']` and `_cache['columns']`
(`KeyError` when absent; the loaded values are assigned without further
validation, so they are returned as raw JSON). `Option.none` means the
method returned `False` without loading. -/
def read_cache (file : Option CacheFile) (now : Int) :
    Except PyErr (Option (Json × Json)) :=
  if (cache_expired (file.map fileStatOf) now CACHE_TIMEOUT).1 = false then
    match file with
    | Option.none => .ok Option.none
    | some f =>
      match f.data with
      | .obj kvs =>
        match jsonLookup kvs "scenarios" with
        | Option.none => .error (.keyError "scenarios")
        | some sj =>
          match jsonLookup kvs "columns" with
          | Option.none => .error (.keyError "columns")
          | some cj => .ok (some (sj, cj))
      | _ => .error .typeError
  else .ok Option.none

/-! ### Scenario discovery (`get_scenarios`)

The landing page is consumed through `BeautifulSoup(...).findAll('a')`,
modelled as the list of `href` attributes (`Option.none` = attribute
missing, which the `except KeyError` turns into `''`). -/

/-- One iteration of `get_scenarios`' anchor loop: a missing `href`
becomes `''`, query-only hrefs are skipped, and an href containing the
path marker and ending in `/` is appended. -/
def scanAnchor (acc : List String) (item : Option String) : List String :=
  let href := item.getD ""
  if pyStartsWith href "?" then acc
  else if strContains href "/publicDatasets/" ∧ pyEndsWith href "/" then
    acc ++ [href]
  else acc

/-- `CTU_Dataset.get_scenarios`, as a function of the landing page's
anchors. -/
def get_scenarios (anchors : List (Option String)) : List String :=
  anchors.foldl scanAnchor []

/-! ### Constructor group validation (`CTU_Dataset.__init__`) -/

/-- The `RuntimeError` message raised for an unknown group. -/
def unknownGroupMsg (g : String) : String :=
  "Dataset group \"" ++ g ++ "\" " ++ "not found in [" ++
    String.intercalate "," GROUPS ++ "]"

/-- The group-handling part of `CTU_Dataset.__init__`: validate every
requested group against `__GROUPS__` (raising on the first unknown one),
then expand `'all'` to `__GROUPS__`. -/
def initGroups (groups : List String) : Except String (List String) :=
  match groups.find? (fun g => !(GROUPS.contains g)) with
  | some g => .error (unknownGroupMsg g)
  | Option.none => .ok (if groups.contains "all" then GROUPS else groups)

/-! ### Query facade (`get_metadata`) -/

/-- Python `==` between a string and a stored value: equal only to an
equal string (`str == bool` and `str == None` are `False`). -/
def pyEqStr (h : String) (v : Val) : Bool :=
  match v with
  | .str s => h = s
  | _ => false

/-- `'_SUCCESS' in attributes and not attributes['_SUCCESS']`. -/
def successSkip (attrs : Attrs) : Bool :=
  match getA attrs "_SUCCESS" with
  | some v => !(truthy v)
  | Option.none => false

/-- `'GROUP' in attributes and attributes['GROUP'] not in groups`:
skip when the stored group is not in the requested list; when `groups`
is `None` (the parameter default) the membership test itself raises
`TypeError`. -/
def groupSkip (groups : Option (List String)) (attrs : Attrs) :
    Except PyErr Bool :=
  match getA attrs "GROUP" with
  | Option.none => .ok false
  | some gv =>
    match groups with
    | Option.none => .error .typeError
    | some gs => .ok (!(gs.any (fun g => pyEqStr g gv)))

/-- The `name_includes` filter: skip records lacking `PROBABLE_NAME`, and
those whose lower-cased name does not contain the lower-cased needle.
`.lower()` on a non-string stored value raises `AttributeError`. -/
def nameSkip (name_includes : Option String) (attrs : Attrs) :
    Except PyErr Bool :=
  match name_includes with
  | Option.none => .ok false
  | some ni =>
    match getA attrs "PROBABLE_NAME" with
    | Option.none => .ok true
    | some (.str s) => .ok (!(strContains (pyLower s) (pyLower ni)))
    | some _ => .error .attributeError

/-- The `has_hash` filter:
`not (has_hash == attributes['MD5'] or has_hash == attributes['SHA1'] or
has_hash == attributes['SHA256'])`. Item access is unguarded and the
disjunction short-circuits, so `KeyError` is raised for the first absent
hash field that is actually reached. -/
def hashSkip (has_hash : Option String) (attrs : Attrs) : Except PyErr Bool :=
  match has_hash with
  | Option.none => .ok false
  | some h =>
    match getItem attrs "MD5" with
    | .error e => .error e
    | .ok m =>
      if pyEqStr h m then .ok false
      else
        match getItem attrs "SHA1" with
        | .error e => .error e
        | .ok s1 =>
          if pyEqStr h s1 then .ok false
          else
            match getItem attrs "SHA256" with
            | .error e => .error e
            | .ok s2 => .ok (!(pyEqStr h s2))

/-- `if c not in row: row[c] = attributes.get(c)` for one column. -/
def addMissing (attrs : Attrs) (row : Attrs) (c : String) : Attrs :=
  if (getA row c).isSome then row
  else setA row c ((getA attrs c).getD Val.null)

/-- The row built for one surviving record: `SCENARIO` and `SCENARIO_URL`
first, then every remaining configured column from the record (absent
fields becoming `None`), projected in column-schema order. -/
def projectRow (cols : List String) (scenario : String) (urlv : Val)
    (attrs : Attrs) : List Val :=
  let row0 := setA (setA [] "SCENARIO" (Val.str scenario)) "SCENARIO_URL" urlv
  let row := cols.foldl (addMissing attrs) row0
  cols.map (fun c => (getA row c).getD Val.null)

/-- Processing of one `(scenario, attributes)` store entry by
`get_metadata`: `Option.none` means the record was skipped by `continue`. -/
def processRecord (cols : List String) (groups : Option (List String))
    (name_includes has_hash : Option String) (scenario : String)
    (attrs : Attrs) : Except PyErr (Option (List Val)) :=
  if successSkip attrs then .ok Option.none else
  match groupSkip groups attrs with
  | .error e => .error e
  | .ok true => .ok Option.none
  | .ok false =>
  match nameSkip name_includes attrs with
  | .error e => .error e
  | .ok true => .ok Option.none
  | .ok false =>
  match getItem attrs "URL" with
  | .error e => .error e
  | .ok urlv =>
  match hashSkip has_hash attrs with
  | .error e => .error e
  | .ok true => .ok Option.none
  | .ok false => .ok (some (projectRow cols scenario urlv attrs))

/-- `CTU_Dataset.get_metadata`: iterate the store in order, collecting a
row per surviving record; an exception raised at any record aborts the
whole call. -/
def get_metadata (cols : List String) (groups : Option (List String))
    (name_includes has_hash : Option String) :
    Store → Except PyErr (List (List Val))
  | [] => .ok []
  | (sc, attrs) :: rest =>
    match processRecord cols groups name_includes has_hash sc attrs with
    | .error e => .error e
    | .ok Option.none => get_metadata cols groups name_includes has_hash rest
    | .ok (some row) =>
      match get_metadata cols groups name_includes has_hash rest with
      | .error e => .error e
      | .ok rows => .ok (row :: rows)

/-! ### Concurrency model of a harvest

`fetch_main` spawns one `record_scenario_metadata` coroutine per
scenario. Each coroutine's fetch behaviour, read off the source, is:

* `fetch_scenario(url)` — `async with self.sem` (acquire), `fetch(url)`
  (the gated page fetch), then release on exit of the `with` block;
* afterwards, one direct `self.fetch(url + __NETFLOW_DATA_DIR__)` per
  marker line of the page — issued *without* touching the semaphore.

A task is modelled by its phase plus the number of nested (marker-line)
fetches it still has to issue; the global state is the semaphore's free
count plus the task list. Steps interleave tasks arbitrarily, as the
event loop may. -/

inductive Task
  | start (m : Nat)      -- not yet entered `async with self.sem`
  | acquired (m : Nat)   -- holds a slot, page fetch not yet started
  | gfetching (m : Nat)  -- gated page fetch in flight
  | gdone (m : Nat)      -- page fetch finished, still inside the `with`
  | idle (m : Nat)       -- slot released; `m` nested fetches remain
  | ufetching (m : Nat)  -- ungated nested fetch in flight (`m` more after it)
  | done
  deriving DecidableEq, Repr

/-- Global harvest state: free semaphore slots and the tasks. -/
structure HState where
  sem : Nat
  tasks : List Task
  deriving DecidableEq, Repr

/-- Interleaving small-step semantics of the fetch behaviour. -/
inductive HStep : HState → HState → Prop
  | acquire (sem : Nat) (ts : List Task) (i m : Nat)
      (h : ts.get? i = some (.start m)) (hs : 0 < sem) :
      HStep ⟨sem, ts⟩ ⟨sem - 1, ts.set i (.acquired m)⟩
  | gstart (sem : Nat) (ts : List Task) (i m : Nat)
      (h : ts.get? i = some (.acquired m)) :
      HStep ⟨sem, ts⟩ ⟨sem, ts.set i (.gfetching m)⟩
  | gend (sem : Nat) (ts : List Task) (i m : Nat)
      (h : ts.get? i = some (.gfetching m)) :
      HStep ⟨sem, ts⟩ ⟨sem, ts.set i (.gdone m)⟩
  | release (sem : Nat) (ts : List Task) (i m : Nat)
      (h : ts.get? i = some (.gdone m)) :
      HStep ⟨sem, ts⟩ ⟨sem + 1, ts.set i (.idle m)⟩
  | ustart (sem : Nat) (ts : List Task) (i m : Nat)
      (h : ts.get? i = some (.idle (m + 1))) :
      HStep ⟨sem, ts⟩ ⟨sem, ts.set i (.ufetching m)⟩
  | uend (sem : Nat) (ts : List Task) (i m : Nat)
      (h : ts.get? i = some (.ufetching m)) :
      HStep ⟨sem, ts⟩ ⟨sem, ts.set i (.idle m)⟩
  | finish (sem : Nat) (ts : List Task) (i : Nat)
      (h : ts.get? i = some (.idle 0)) :
      HStep ⟨sem, ts⟩ ⟨sem, ts.set i .done⟩

/-- Reachability from a state. -/
inductive HReach : HState → HState → Prop
  | refl (s : HState) : HReach s s
  | tail (s t u : HState) (h1 : HReach s t) (h2 : HStep t u) : HReach s u

/-- Initial harvest state: the configured semaphore limit `n` slots are
free and one task per scenario, `ms` listing each page's number of
marker lines. -/
def harvestInit (n : Nat) (ms : List Nat) : HState :=
  ⟨n, ms.map .start⟩

/-- The task currently performs a (gated) page fetch. -/
def isGFetch : Task → Bool
  | .gfetching _ => true
  | _ => false

/-- The task currently performs an (ungated) nested subpage fetch. -/
def isUFetch : Task → Bool
  | .ufetching _ => true
  | _ => false

/-- The task currently performs any fetch. -/
def isFetch (t : Task) : Bool :=
  isGFetch t || isUFetch t

/-- The task holds a semaphore slot. -/
def holdsSlot : Task → Bool
  | .acquired _ => true
  | .gfetching _ => true
  | .gdone _ => true
  | _ => false

/-- Number of fetches in flight. -/
def fetchCount (s : HState) : Nat :=
  s.tasks.countP isFetch

/-- Number of gated (page) fetches in flight. -/
def gatedFetchCount (s : HState) : Nat :=
  s.tasks.countP isGFetch

/-- Number of tasks holding a slot. -/
def holderCount (s : HState) : Nat :=
  s.tasks.countP holdsSlot

/-- The selection `get_scenarios` makes for one anchor, as a partial map:
kept iff the anchor has an href that does not start with `?`, contains the
path marker and ends in `/`. -/
def hrefFilter (item : Option String) : Option String :=
  match item with
  | Option.none => Option.none
  | some href =>
    if ¬ pyStartsWith href "?" ∧ strContains href "/publicDatasets/" ∧
        pyEndsWith href "/" then
      some href
    else Option.none

/-- The value a `get_metadata` row holds at column `c` for the record
`(scenario, attrs)` with URL value `urlv`: the store key under
`SCENARIO`, the record's URL under `SCENARIO_URL`, and otherwise the
record's field, with `None` marking an absent field. -/
def rowEntry (scenario : String) (urlv : Val) (attrs : Attrs) (c : String) : Val :=
  if c = "SCENARIO" then Val.str scenario
  else if c = "SCENARIO_URL" then urlv
  else (getA attrs c).getD Val.null

/-! ## Theorems -/

theorem scanAnchor_eq (acc : List String) (item : Option String) :
    scanAnchor acc item = acc ++ (hrefFilter item).toList := by
  cases item with
  | none =>
    have h1 : pyStartsWith "" "?" = false := by decide
    have h2 : strContains "" "/publicDatasets/" = false := by decide
    simp [scanAnchor, hrefFilter, h1, h2]
  | some href =>
    by_cases hq : pyStartsWith href "?" = true
    · simp [scanAnchor, hrefFilter, hq]
    · by_cases hk : strContains href "/publicDatasets/" = true ∧
        pyEndsWith href "/" = true
      · simp [scanAnchor, hrefFilter, hq, hk.1, hk.2]
      · rcases Decidable.not_and_iff_or_not.mp hk with hk1 | hk1 <;>
          simp [scanAnchor, hrefFilter, hq, Bool.eq_false_iff.mpr hk1,
            Bool.not_eq_true]

theorem foldl_scanAnchor (anchors : List (Option String)) :
    ∀ acc : List String,
      anchors.foldl scanAnchor acc = acc ++ anchors.filterMap hrefFilter := by
  induction anchors with
  | nil => intro acc; simp
  | cons a t ih =>
    intro acc
    simp only [List.foldl_cons, List.filterMap_cons]
    rw [ih, scanAnchor_eq]
    cases h : hrefFilter a <;> simp [h]

/-- C8: `get_scenarios` returns exactly the ordered list of anchor hrefs
containing `/publicDatasets/` and ending in `/`, skipping anchors without
an href and hrefs beginning with `?`; a landing page with the single
anchor `/publicDatasets/CTU-13-1/` yields exactly that one URL. -/
theorem C8_get_scenarios_confirmed :
    (∀ anchors : List (Option String),
        get_scenarios anchors = anchors.filterMap hrefFilter) ∧
      get_scenarios [some "/publicDatasets/CTU-13-1/"] =
        ["/publicDatasets/CTU-13-1/"] := by
  constructor
  · intro anchors
    rw [get_scenarios, foldl_scanAnchor]
    simp
  · decide

/-- C9: a `groups` list containing `"all"` makes the constructor raise the
unknown-group `RuntimeError` before the `'all'` expansion branch runs (for
some offending group, the first invalid one); consequently whenever group
validation succeeds the result is the request itself, never the expansion. -/
theorem C9_all_group_rejected (groups : List String) :
    ("all" ∈ groups →
        ∃ g, initGroups groups = .error (unknownGroupMsg g)) ∧
      (∀ res, initGroups groups = .ok res → res = groups) := by
  constructor
  · intro hall
    unfold initGroups
    cases hfind : groups.find? (fun g => !(GROUPS.contains g)) with
    | some g => exact ⟨g, rfl⟩
    | none =>
      exfalso
      have := List.find?_eq_none.mp hfind "all" hall
      simp [GROUPS] at this
  · intro res hres
    unfold initGroups at hres
    cases hfind : groups.find? (fun g => !(GROUPS.contains g)) with
    | some g => rw [hfind] at hres; cases hres
    | none =>
      rw [hfind] at hres
      cases hall : groups.contains "all" with
      | false =>
        rw [hall] at hres
        simp at hres
        exact hres.symm
      | true =>
        exfalso
        have hmem : "all" ∈ groups := by simpa using hall
        have := List.find?_eq_none.mp hfind "all" hmem
        simp [GROUPS] at this

/-- Witness for C9 at the concrete input `groups = ["all"]`. -/
theorem C9_witness :
    ∃ g, initGroups ["all"] = .error (unknownGroupMsg g) :=
  (C9_all_group_rejected ["all"]).1 (by simp)

/-- C5 (code bug): a fresh zero-byte cache file is deleted by
`cache_expired`, but the method then still runs the age comparison on the
pre-deletion stat results and reports the cache as *not* expired
(`false`), contradicting the claimed `true`-regardless-of-age behaviour. -/
theorem C5_empty_cache_bug :
    cache_expired (some ⟨0, 100⟩) 100 CACHE_TIMEOUT = (false, Option.none) := by
  decide

/-- C6 (counterexample): `cache_expired` does not compare against the
timeout configured at construction. With a construction-time timeout of
`0`, a file of age `100` is reported as not expired, because the no-arg
call uses the parameter default `__CACHE_TIMEOUT__` instead. -/
theorem C6_counterexample :
    ¬ (∀ (ctorTimeout : Int) (file : Option FileStat) (now : Int),
        (cacheExpiredNoArg ctorTimeout file now).1 = false ↔
          ∃ st, file = some st ∧ now - st.mtime ≤ ctorTimeout) := by
  intro hcl
  have h2 := (hcl 0 (some ⟨1, 0⟩) 100).mp (by decide)
  obtain ⟨st, hst, hle⟩ := h2
  cases hst
  simp at hle

/-- C6 (amended): the no-argument call `self.cache_expired()` compares the
file's age against the parameter default `__CACHE_TIMEOUT__` (7 days),
ignoring the construction-time timeout entirely: it returns `false`
exactly when the file is present (at stat time) with age at most that
default, and returns `true` when the file is missing. -/
theorem C6_amended (ctorTimeout : Int) (file : Option FileStat) (now : Int) :
    ((cacheExpiredNoArg ctorTimeout file now).1 = false ↔
        ∃ st, file = some st ∧ now - st.mtime ≤ CACHE_TIMEOUT) ∧
      (cacheExpiredNoArg ctorTimeout Option.none now).1 = true := by
  constructor
  · cases file with
    | none => simp [cacheExpiredNoArg, cache_expired]
    | some st =>
      by_cases hage : now - st.mtime ≤ CACHE_TIMEOUT
      · simp only [cacheExpiredNoArg, cache_expired, hage, if_true]
        simp only [Option.some.injEq]
        constructor
        · intro _
          exact ⟨st, rfl, hage⟩
        · intro _
          trivial
      · simp only [cacheExpiredNoArg, cache_expired, hage, if_false]
        constructor
        · intro hfalse
          cases hfalse
        · rintro ⟨st2, hst2, hle⟩
          cases hst2
          exact absurd hle hage
  · rfl

/-! Preservation lemmas: the parser's field updates only touch keys of the
column schema, plus `BINETFLOW`; every other key of the record is left
unchanged by the line loop and the anchor loop. -/

theorem getA_colonUpdate (cols : List String) (attrs : Attrs)
    (line key : String) (h : cols.contains key = false) :
    getA (colonUpdate cols attrs line) key = getA attrs key := by
  unfold colonUpdate
  split
  · split
    · split
      · rename_i hc
        refine getA_setA_ne _ _ _ _ ?_
        intro he
        rw [← he] at hc
        rw [hc] at h
        cases h
      · rfl
    · rfl
  · rfl

theorem getA_processLine (cols : List String) (subA : List (Option String))
    (attrs : Attrs) (line key : String) (a1 : Attrs)
    (hcol : cols.contains key = false) (hb : key ≠ "BINETFLOW")
    (hok : processLine cols subA attrs line = .ok a1) :
    getA a1 key = getA attrs key := by
  unfold processLine at hok
  by_cases hm : strContains line NETFLOW_DATA_DIR = true
  · simp only [hm, if_true] at hok
    cases hfb : findBinetflow subA with
    | error e => rw [hfb] at hok; cases hok
    | ok o =>
      rw [hfb] at hok
      cases o with
      | none =>
        simp only [Except.ok.injEq] at hok
        rw [← hok, getA_colonUpdate _ _ _ _ hcol]
      | some hhref =>
        simp only [Except.ok.injEq] at hok
        rw [← hok, getA_colonUpdate _ _ _ _ hcol,
          getA_setA_ne _ _ _ _ hb]
  · rw [if_neg hm] at hok
    simp only [Except.ok.injEq] at hok
    rw [← hok, getA_colonUpdate _ _ _ _ hcol]

theorem getA_processLines (cols : List String) (subA : List (Option String))
    (key : String) (hcol : cols.contains key = false)
    (hb : key ≠ "BINETFLOW") :
    ∀ (lines : List String) (attrs a5 : Attrs),
      processLines cols subA attrs lines = .ok a5 →
      getA a5 key = getA attrs key := by
  intro lines
  induction lines with
  | nil =>
    intro attrs a5 hok
    simp only [processLines, Except.ok.injEq] at hok
    rw [hok]
  | cons line rest ih =>
    intro attrs a5 hok
    unfold processLines at hok
    cases hpl : processLine cols subA attrs line with
    | error e => rw [hpl] at hok; cases hok
    | ok a1 =>
      rw [hpl] at hok
      rw [ih a1 a5 hok, getA_processLine cols subA attrs line key a1 hcol hb hpl]

theorem getA_extUpdate (cols : List String) (attrs : Attrs)
    (anchor : Option String) (key : String)
    (hcol : cols.contains key = false) :
    getA (extUpdate cols attrs anchor) key = getA attrs key := by
  unfold extUpdate
  split
  · rfl
  · split
    · rfl
    · split
      · rename_i hc
        refine getA_setA_ne _ _ _ _ ?_
        intro he
        rw [← he] at hc
        rw [hc] at hcol
        cases hcol
      · rfl

theorem getA_foldl_extUpdate (cols : List String) (key : String)
    (hcol : cols.contains key = false) :
    ∀ (anchors : List (Option String)) (attrs : Attrs),
      getA (anchors.foldl (extUpdate cols) attrs) key = getA attrs key := by
  intro anchors
  induction anchors with
  | nil => intro attrs; rfl
  | cons a t ih =>
    intro attrs
    rw [List.foldl_cons, ih, getA_extUpdate _ _ _ _ hcol]

/-- C1 (counterexample): a scenario page containing the marker
`"Not Found"` gets `_SUCCESS = False`, yet parsing continues and the
`MD5: deadbeef` line still populates the `MD5` field — the record does
have populated fields beyond `GROUP` and `URL`. -/
theorem C1_counterexample :
    record_scenario_metadata CTU_COLUMNS Option.none "ctu13"
        "https://mcfp.felk.cvut.cz/publicDatasets/CTU-13-1/"
        "Not Found\nMD5: deadbeef" ⟨["Not Found", "MD5: deadbeef"], []⟩ [] =
      .ok ("CTU-13-1",
        [("GROUP", Val.str "ctu13"),
         ("URL", Val.str "https://mcfp.felk.cvut.cz/publicDatasets/CTU-13-1/"),
         ("_PAGE", Val.str "Not Found\nMD5: deadbeef"),
         ("_SUCCESS", Val.bool false),
         ("MD5", Val.str "deadbeef")]) := by
  rfl

/-- C1 (amended): for a fetched page that is empty or contains
`"Not Found"`, `record_scenario_metadata` records `_SUCCESS = False` (the
record always keeps that flag, under the default column schema); parsing
nevertheless continues, so other fields may still be populated. -/
theorem C1_amended (prev : Option Attrs) (group url page : String)
    (soup : Soup) (subAnchors : List (Option String)) (name : String)
    (attrs : Attrs)
    (hpage : page = "" ∨ strContains page "Not Found" = true)
    (hok : record_scenario_metadata CTU_COLUMNS prev group url page soup
      subAnchors = .ok (name, attrs)) :
    getA attrs "_SUCCESS" = some (Val.bool false) := by
  unfold record_scenario_metadata at hok
  cases hdn : deriveName url with
  | error e => rw [hdn] at hok; cases hok
  | ok nm =>
    rw [hdn] at hok
    simp only at hok
    cases hpls : processLines CTU_COLUMNS subAnchors
        (setA (setA (setA (setA (prev.getD []) "GROUP" (Val.str group))
          "URL" (Val.str url)) "_PAGE" (Val.str page)) "_SUCCESS"
          (Val.bool ((!(page == "")) && (!(strContains page "Not Found")))))
        soup.textLines with
    | error e => rw [hpls] at hok; cases hok
    | ok a5 =>
      rw [hpls] at hok
      simp only [Except.ok.injEq, Prod.mk.injEq] at hok
      obtain ⟨-, hattrs⟩ := hok
      have hsucc : ((!(page == "")) && (!(strContains page "Not Found"))) = false := by
        rcases hpage with hp | hp
        · subst hp
          rfl
        · rw [hp]
          simp
      rw [← hattrs,
        getA_foldl_extUpdate CTU_COLUMNS "_SUCCESS" (by rfl),
        getA_processLines CTU_COLUMNS subAnchors "_SUCCESS" (by rfl)
          (by decide) soup.textLines _ a5 hpls,
        getA_setA_self, hsucc]

/-- Witness for C1 at a concrete page `"Not Found"`. -/
theorem C1_witness :
    getA [("GROUP", Val.str "ctu13"),
          ("URL", Val.str "https://x/publicDatasets/CTU-13-1/"),
          ("_PAGE", Val.str "Not Found"),
          ("_SUCCESS", Val.bool false)] "_SUCCESS" =
      some (Val.bool false) :=
  C1_amended Option.none "ctu13" "https://x/publicDatasets/CTU-13-1/"
    "Not Found" ⟨["Not Found"], []⟩ [] "CTU-13-1" _
    (Or.inr (by rfl)) (by rfl)

/-- C4 (counterexample): the line `"MD5: dead:beef"` contains two colons,
so `line.split(':')` yields three parts, the pair unpacking raises
`ValueError`, and the line is skipped entirely: the claimed first-colon
split (which would set `MD5 = "dead:beef"`) does not happen and `MD5`
stays unset. -/
theorem C4_counterexample :
    record_scenario_metadata CTU_COLUMNS Option.none "ctu13"
        "https://mcfp.felk.cvut.cz/publicDatasets/CTU-13-1/" "MD5: dead:beef"
        ⟨["MD5: dead:beef"], []⟩ [] =
      .ok ("CTU-13-1",
        [("GROUP", Val.str "ctu13"),
         ("URL", Val.str "https://mcfp.felk.cvut.cz/publicDatasets/CTU-13-1/"),
         ("_PAGE", Val.str "MD5: dead:beef"),
         ("_SUCCESS", Val.bool true)]) ∧
      getA [("GROUP", Val.str "ctu13"),
         ("URL", Val.str "https://mcfp.felk.cvut.cz/publicDatasets/CTU-13-1/"),
         ("_PAGE", Val.str "MD5: dead:beef"),
         ("_SUCCESS", Val.bool true)] "MD5" = Option.none := by
  exact ⟨by rfl, by rfl⟩

/-- C4 (amended): a line containing a colon (and not equal to `":"`) is
split by `line.split(':')`, which the pair unpacking accepts only when the
line has exactly one colon: in that case the label is upper-cased with
spaces replaced by underscores and, when recognized, the field is set to
the stripped value; lines with more than one colon are skipped silently.
The spec's concrete example with one colon per line still holds. -/
theorem C4_amended :
    (∀ (cols : List String) (attrs : Attrs) (line k v : String),
        strContains line ":" = true → line ≠ ":" →
        pySplit line ':' = [k, v] →
        colonUpdate cols attrs line =
          (if cols.contains (pyReplaceChar (pyUpper k) ' ' '_') then
            setA attrs (pyReplaceChar (pyUpper k) ' ' '_')
              (Val.str (pyStrip v))
          else attrs)) ∧
      record_scenario_metadata CTU_COLUMNS Option.none "ctu13"
          "https://x/publicDatasets/S/" "MD5: deadbeef\nSHA1: cafef00d\n"
          ⟨["MD5: deadbeef", "SHA1: cafef00d"], []⟩ [] =
        .ok ("S",
          [("GROUP", Val.str "ctu13"),
           ("URL", Val.str "https://x/publicDatasets/S/"),
           ("_PAGE", Val.str "MD5: deadbeef\nSHA1: cafef00d\n"),
           ("_SUCCESS", Val.bool true),
           ("MD5", Val.str "deadbeef"),
           ("SHA1", Val.str "cafef00d")]) := by
  constructor
  · intro cols attrs line k v hcolon hne hsplit
    unfold colonUpdate
    rw [if_pos ⟨hcolon, hne⟩, hsplit]
  · rfl

/-- Witness for C4's amended per-line statement at `"MD5: deadbeef"`. -/
theorem C4_witness :
    colonUpdate CTU_COLUMNS [] "MD5: deadbeef" =
      (if CTU_COLUMNS.contains (pyReplaceChar (pyUpper "MD5") ' ' '_') then
        setA [] (pyReplaceChar (pyUpper "MD5") ' ' '_')
          (Val.str (pyStrip " deadbeef"))
      else []) :=
  C4_amended.1 CTU_COLUMNS [] "MD5: deadbeef" "MD5" " deadbeef"
    (by rfl) (by decide) (by rfl)

/-- C3 (counterexample): a record with `SHA1 = "abc123"` but *no* `MD5`
field makes `get_metadata` raise `KeyError('MD5')` for
`has_hash = "abc123"` — the record is neither returned nor skipped. -/
theorem C3_counterexample :
    get_metadata CTU_COLUMNS (some []) Option.none (some "abc123")
        [("s", [("URL", Val.str "u"), ("SHA1", Val.str "abc123")])] =
      .error (.keyError "MD5") := by
  rfl

/-- C3 (amended): when the three hash fields `MD5`, `SHA1`, `SHA256` are
all present in a record, the `has_hash` check keeps the record exactly
when one of them equals `has_hash` (exact, case-sensitive string
equality) and skips it otherwise; when a hash field reached by the
left-to-right short-circuit evaluation is absent, `KeyError` is raised
instead of skipping. A record with all three fields and `SHA1 = "abc123"`
is returned for `has_hash = "abc123"` and excluded for
`has_hash = "xyz"`. -/
theorem C3_amended :
    (∀ (attrs : Attrs) (h : String) (m s1 s2 : Val),
        getA attrs "MD5" = some m → getA attrs "SHA1" = some s1 →
        getA attrs "SHA256" = some s2 →
        hashSkip (some h) attrs =
          .ok (!(pyEqStr h m || pyEqStr h s1 || pyEqStr h s2))) ∧
      get_metadata CTU_COLUMNS (some []) Option.none (some "abc123")
          [("s", [("URL", Val.str "u"), ("MD5", Val.str "m0"),
                  ("SHA1", Val.str "abc123"), ("SHA256", Val.str "z")])] =
        .ok [[Val.str "s", Val.null, Val.str "u", Val.null, Val.null,
              Val.str "m0", Val.str "abc123", Val.str "z", Val.null,
              Val.null, Val.null]] ∧
      get_metadata CTU_COLUMNS (some []) Option.none (some "xyz")
          [("s", [("URL", Val.str "u"), ("MD5", Val.str "m0"),
                  ("SHA1", Val.str "abc123"), ("SHA256", Val.str "z")])] =
        .ok [] := by
  refine ⟨?_, by rfl, by rfl⟩
  intro attrs h m s1 s2 hm hs1 hs2
  unfold hashSkip getItem
  rw [hm, hs1, hs2]
  cases hqm : pyEqStr h m with
  | true => simp [hqm]
  | false =>
    cases hqs1 : pyEqStr h s1 with
    | true => simp [hqm, hqs1]
    | false =>
      cases hqs2 : pyEqStr h s2 with
      | true => simp [hqm, hqs1, hqs2]
      | false => simp [hqm, hqs1, hqs2]

/-- Witness for C3's amended hash-check characterization at a concrete
record holding all three hash fields. -/
theorem C3_witness :
    hashSkip (some "abc123")
        [("MD5", Val.str "m0"), ("SHA1", Val.str "abc123"),
         ("SHA256", Val.str "z")] =
      .ok (!(pyEqStr "abc123" (Val.str "m0") ||
             pyEqStr "abc123" (Val.str "abc123") ||
             pyEqStr "abc123" (Val.str "z"))) :=
  C3_amended.1 [("MD5", Val.str "m0"), ("SHA1", Val.str "abc123"),
    ("SHA256", Val.str "z")] "abc123" (Val.str "m0") (Val.str "abc123")
    (Val.str "z") (by rfl) (by rfl) (by rfl)

/-! Round-trip lemmas for the persisted JSON encoding. -/

theorem valOfJson_valToJson (v : Val) : valOfJson (valToJson v) = some v := by
  cases v <;> rfl

theorem attrsOfJson_attrsToJson (a : Attrs) :
    attrsOfJson (attrsToJson a) = some a := by
  induction a with
  | nil => rfl
  | cons kv t ih =>
    obtain ⟨k, v⟩ := kv
    simp only [attrsToJson, List.map_cons, attrsOfJson,
      attrsOfJson.attrsOfJsonList, valOfJson_valToJson]
    simp only [attrsToJson, attrsOfJson] at ih
    rw [ih]

theorem storeOfJson_storeToJson (st : Store) :
    storeOfJson (storeToJson st) = some st := by
  induction st with
  | nil => rfl
  | cons na t ih =>
    obtain ⟨n, a⟩ := na
    simp only [storeToJson, List.map_cons, storeOfJson,
      storeOfJson.storeOfJsonList, attrsOfJson_attrsToJson]
    simp only [storeToJson, storeOfJson] at ih
    rw [ih]

theorem colsOfJson_colsToJson (cs : List String) :
    colsOfJson (colsToJson cs) = some cs := by
  induction cs with
  | nil => rfl
  | cons c t ih =>
    simp only [colsToJson, List.map_cons, colsOfJson, colsOfJson.colsOfJsonList]
    simp only [colsToJson, colsOfJson] at ih
    rw [ih]

/-- C7: `write_cache` followed by `read_cache` on a fresh (not yet
expired) cache file loads exactly the persisted scenarios and columns,
and the persisted encoding is lossless: decoding it yields the same
scenario keys, the same field values and the same column schema. -/
theorem C7_roundtrip_confirmed (scenarios : Store) (columns : List String)
    (tw tr : Int) (hfresh : tr - tw ≤ CACHE_TIMEOUT) :
    read_cache (some (write_cache scenarios columns tw)) tr =
        .ok (some (storeToJson scenarios, colsToJson columns)) ∧
      storeOfJson (storeToJson scenarios) = some scenarios ∧
      colsOfJson (colsToJson columns) = some columns := by
  refine ⟨?_, storeOfJson_storeToJson scenarios, colsOfJson_colsToJson columns⟩
  unfold read_cache
  have hmap : (some (write_cache scenarios columns tw)).map fileStatOf =
      some ⟨4, tw⟩ := rfl
  have hexp : cache_expired (some (⟨4, tw⟩ : FileStat)) tr CACHE_TIMEOUT =
      (false, some ⟨4, tw⟩) := by
    simp only [cache_expired]
    rw [if_pos (show tr - (⟨4, tw⟩ : FileStat).mtime ≤ CACHE_TIMEOUT from hfresh)]
    rfl
  rw [hmap, hexp]
  rfl

/-- Witness for C7 at a concrete one-record store written and reread at
the same instant. -/
theorem C7_witness :
    read_cache (some (write_cache [("s", [("URL", Val.str "u")])] ["A"] 0)) 0 =
        .ok (some (storeToJson [("s", [("URL", Val.str "u")])],
          colsToJson ["A"])) ∧
      storeOfJson (storeToJson [("s", [("URL", Val.str "u")])]) =
        some [("s", [("URL", Val.str "u")])] ∧
      colsOfJson (colsToJson ["A"]) = some ["A"] :=
  C7_roundtrip_confirmed [("s", [("URL", Val.str "u")])] ["A"] 0 0 (by decide)

/-! Row-projection lemmas for `get_metadata`. -/

theorem getA_foldl_addMissing (attrs : Attrs) :
    ∀ (cols : List String) (r0 : Attrs) (c : String),
      getA (cols.foldl (addMissing attrs) r0) c =
        match getA r0 c with
        | some v => some v
        | Option.none =>
          if c ∈ cols then some ((getA attrs c).getD Val.null)
          else Option.none := by
  intro cols
  induction cols with
  | nil =>
    intro r0 c
    cases h : getA r0 c <;> simp [h]
  | cons c2 rest ih =>
    intro r0 c
    rw [List.foldl_cons, ih]
    by_cases hcc : c = c2
    · subst hcc
      cases h0 : getA r0 c with
      | some v =>
        have hadd : getA (addMissing attrs r0 c) c = some v := by
          unfold addMissing
          rw [h0]
          simp [h0]
        rw [hadd]
      | none =>
        have hadd : getA (addMissing attrs r0 c) c =
            some ((getA attrs c).getD Val.null) := by
          unfold addMissing
          rw [h0]
          simp [getA_setA_self]
        rw [hadd]
        simp [h0]
    · have hadd : getA (addMissing attrs r0 c2) c = getA r0 c := by
        unfold addMissing
        split
        · rfl
        · exact getA_setA_ne _ _ _ _ hcc
      rw [hadd]
      cases h0 : getA r0 c <;> simp [h0, hcc]

theorem projectRow_eq (cols : List String) (scenario : String) (urlv : Val)
    (attrs : Attrs) :
    projectRow cols scenario urlv attrs =
      cols.map (rowEntry scenario urlv attrs) := by
  unfold projectRow
  refine List.map_congr_left ?_
  intro c hc
  rw [getA_foldl_addMissing]
  by_cases h1 : c = "SCENARIO"
  · subst h1
    simp [setA, getA, rowEntry]
  · by_cases h2 : c = "SCENARIO_URL"
    · subst h2
      simp [setA, getA, rowEntry]
    · have h0 : getA (setA (setA [] "SCENARIO" (Val.str scenario))
          "SCENARIO_URL" urlv) c = Option.none := by
        simp [setA, getA, Ne.symm h1, Ne.symm h2]
      rw [h0]
      simp [hc, rowEntry, h1, h2]

theorem processRecord_ok_some (cols : List String)
    (groups : Option (List String)) (ni hh : Option String) (sc : String)
    (attrs : Attrs) (r : List Val)
    (hok : processRecord cols groups ni hh sc attrs = .ok (some r)) :
    ∃ urlv, getItem attrs "URL" = .ok urlv ∧
      r = cols.map (rowEntry sc urlv attrs) := by
  unfold processRecord at hok
  by_cases hs : successSkip attrs = true
  · rw [if_pos hs] at hok
    simp at hok
  · rw [if_neg hs] at hok
    cases hgs : groupSkip groups attrs with
    | error e => rw [hgs] at hok; cases hok
    | ok b =>
      rw [hgs] at hok
      cases b with
      | true => simp at hok
      | false =>
        cases hns : nameSkip ni attrs with
        | error e => rw [hns] at hok; cases hok
        | ok b2 =>
          rw [hns] at hok
          cases b2 with
          | true => simp at hok
          | false =>
            cases hurl : getItem attrs "URL" with
            | error e => rw [hurl] at hok; cases hok
            | ok urlv =>
              rw [hurl] at hok
              cases hhs : hashSkip hh attrs with
              | error e => rw [hhs] at hok; cases hok
              | ok b3 =>
                rw [hhs] at hok
                cases b3 with
                | true => simp at hok
                | false =>
                  simp only [Except.ok.injEq, Option.some.injEq] at hok
                  exact ⟨urlv, rfl, by rw [← hok, projectRow_eq]⟩

/-- C10: every row returned by `get_metadata` comes from some store
record and equals the column-schema-ordered projection of that record:
one entry per configured column, the `SCENARIO` column holding the store
key, the `SCENARIO_URL` column holding the record's `URL` field, and
never-set fields appearing as the absent marker `None`. -/
theorem C10_row_shape_confirmed (cols : List String)
    (groups : Option (List String)) (ni hh : Option String) :
    ∀ (store : Store) (rows : List (List Val)),
      get_metadata cols groups ni hh store = .ok rows →
      ∀ r ∈ rows, ∃ sc attrs urlv, (sc, attrs) ∈ store ∧
        getItem attrs "URL" = .ok urlv ∧
        r = cols.map (rowEntry sc urlv attrs) := by
  intro store
  induction store with
  | nil =>
    intro rows hok r hr
    simp only [get_metadata, Except.ok.injEq] at hok
    rw [← hok] at hr
    cases hr
  | cons entry rest ih =>
    obtain ⟨sc, attrs⟩ := entry
    intro rows hok r hr
    unfold get_metadata at hok
    cases hpr : processRecord cols groups ni hh sc attrs with
    | error e => rw [hpr] at hok; cases hok
    | ok o =>
      rw [hpr] at hok
      cases o with
      | none =>
        obtain ⟨sc2, attrs2, urlv, hmem, hurl, hrow⟩ := ih rows hok r hr
        exact ⟨sc2, attrs2, urlv, List.mem_cons_of_mem _ hmem, hurl, hrow⟩
      | some row =>
        cases hrest : get_metadata cols groups ni hh rest with
        | error e => rw [hrest] at hok; cases hok
        | ok rows2 =>
          rw [hrest] at hok
          simp only [Except.ok.injEq] at hok
          rw [← hok] at hr
          cases hr with
          | head =>
            obtain ⟨urlv, hurl, hrow⟩ :=
              processRecord_ok_some cols groups ni hh sc attrs r hpr
            exact ⟨sc, attrs, urlv, List.mem_cons_self _ _, hurl, hrow⟩
          | tail _ hr2 =>
            obtain ⟨sc2, attrs2, urlv, hmem, hurl, hrow⟩ := ih rows2 hrest r hr2
            exact ⟨sc2, attrs2, urlv, List.mem_cons_of_mem _ hmem, hurl, hrow⟩

/-- Witness for C10 at a concrete one-record store under the default
column schema. -/
theorem C10_witness :
    ∃ sc attrs urlv,
      (sc, attrs) ∈ ([("s", [("URL", Val.str "u")])] : Store) ∧
      getItem attrs "URL" = .ok urlv ∧
      ([Val.str "s", Val.null, Val.str "u", Val.null, Val.null, Val.null,
        Val.null, Val.null, Val.null, Val.null, Val.null] : List Val) =
        CTU_COLUMNS.map (rowEntry sc urlv attrs) :=
  C10_row_shape_confirmed CTU_COLUMNS (some []) Option.none Option.none
    [("s", [("URL", Val.str "u")])]
    [[Val.str "s", Val.null, Val.str "u", Val.null, Val.null, Val.null,
      Val.null, Val.null, Val.null, Val.null, Val.null]]
    (by rfl) _ (by simp)

/-! Counting lemmas and the semaphore invariant for the harvest model. -/

theorem countP_set_of_get (p : Task → Bool) :
    ∀ (ts : List Task) (i : Nat) (t t2 : Task), ts.get? i = some t →
      (ts.set i t2).countP p + (if p t then 1 else 0) =
        ts.countP p + (if p t2 then 1 else 0) := by
  intro ts
  induction ts with
  | nil => intro i t t2 h; cases h
  | cons hd tl ih =>
    intro i t t2 h
    cases i with
    | zero =>
      simp only [List.get?_cons_zero, Option.some.injEq] at h
      subst h
      simp only [List.set_cons_zero, List.countP_cons]
      omega
    | succ n =>
      simp only [List.get?_cons_succ] at h
      simp only [List.set_cons_succ, List.countP_cons]
      have := ih n t t2 h
      omega

theorem countP_le_countP (p q : Task → Bool)
    (himp : ∀ a, p a = true → q a = true) :
    ∀ ts : List Task, ts.countP p ≤ ts.countP q := by
  intro ts
  induction ts with
  | nil => simp
  | cons hd tl ih =>
    simp only [List.countP_cons]
    cases hp : p hd with
    | false => simp; omega
    | true => rw [himp hd hp]; simp; omega

/-- The semaphore accounting invariant: free slots plus held slots equal
the configured limit. -/
def HInv (n : Nat) (s : HState) : Prop :=
  s.sem + holderCount s = n

theorem hstep_inv (n : Nat) (s t : HState) (hst : HStep s t)
    (hi : HInv n s) : HInv n t := by
  cases hst with
  | acquire sem ts i m h hs =>
    unfold HInv holderCount at hi ⊢
    have hc := countP_set_of_get holdsSlot ts i _ (Task.acquired m) h
    simp [holdsSlot] at hc
    simp only at hi ⊢
    omega
  | gstart sem ts i m h =>
    unfold HInv holderCount at hi ⊢
    have hc := countP_set_of_get holdsSlot ts i _ (Task.gfetching m) h
    simp [holdsSlot] at hc
    simp only at hi ⊢
    omega
  | gend sem ts i m h =>
    unfold HInv holderCount at hi ⊢
    have hc := countP_set_of_get holdsSlot ts i _ (Task.gdone m) h
    simp [holdsSlot] at hc
    simp only at hi ⊢
    omega
  | release sem ts i m h =>
    unfold HInv holderCount at hi ⊢
    have hc := countP_set_of_get holdsSlot ts i _ (Task.idle m) h
    simp [holdsSlot] at hc
    simp only at hi ⊢
    omega
  | ustart sem ts i m h =>
    unfold HInv holderCount at hi ⊢
    have hc := countP_set_of_get holdsSlot ts i _ (Task.ufetching m) h
    simp [holdsSlot] at hc
    simp only at hi ⊢
    omega
  | uend sem ts i m h =>
    unfold HInv holderCount at hi ⊢
    have hc := countP_set_of_get holdsSlot ts i _ (Task.idle m) h
    simp [holdsSlot] at hc
    simp only at hi ⊢
    omega
  | finish sem ts i h =>
    unfold HInv holderCount at hi ⊢
    have hc := countP_set_of_get holdsSlot ts i _ Task.done h
    simp [holdsSlot] at hc
    simp only at hi ⊢
    omega

theorem hreach_inv (n : Nat) (s0 s : HState) (hr : HReach s0 s)
    (hi : HInv n s0) : HInv n s := by
  induction hr with
  | refl => exact hi
  | tail t u h1 h2 ih => exact hstep_inv n t u h2 ih

theorem countP_start_zero :
    ∀ ms : List Nat, (ms.map Task.start).countP holdsSlot = 0 := by
  intro ms
  induction ms with
  | nil => rfl
  | cons m t ih => simp [List.countP_cons, holdsSlot, ih]

/-- C2 (counterexample): with semaphore limit `N = 1` and two scenarios
whose pages each carry one netflow-marker line, the harvest can reach a
state in which both tasks' nested subpage fetches are in flight at once —
two concurrent fetches under a limit of one, because the nested fetch
does not pass through the gate. -/
theorem C2_counterexample :
    ¬ (∀ (n : Nat) (ms : List Nat) (s : HState),
        HReach (harvestInit n ms) s → fetchCount s ≤ n) := by
  intro hcl
  have r0 : HReach (harvestInit 1 [1, 1]) ⟨1, [.start 1, .start 1]⟩ :=
    HReach.refl _
  have r1 : HReach (harvestInit 1 [1, 1]) ⟨0, [.acquired 1, .start 1]⟩ :=
    HReach.tail _ _ _ r0 (HStep.acquire 1 [.start 1, .start 1] 0 1 rfl
      (by decide))
  have r2 : HReach (harvestInit 1 [1, 1]) ⟨0, [.gfetching 1, .start 1]⟩ :=
    HReach.tail _ _ _ r1 (HStep.gstart 0 [.acquired 1, .start 1] 0 1 rfl)
  have r3 : HReach (harvestInit 1 [1, 1]) ⟨0, [.gdone 1, .start 1]⟩ :=
    HReach.tail _ _ _ r2 (HStep.gend 0 [.gfetching 1, .start 1] 0 1 rfl)
  have r4 : HReach (harvestInit 1 [1, 1]) ⟨1, [.idle 1, .start 1]⟩ :=
    HReach.tail _ _ _ r3 (HStep.release 0 [.gdone 1, .start 1] 0 1 rfl)
  have r5 : HReach (harvestInit 1 [1, 1]) ⟨0, [.idle 1, .acquired 1]⟩ :=
    HReach.tail _ _ _ r4 (HStep.acquire 1 [.idle 1, .start 1] 1 1 rfl
      (by decide))
  have r6 : HReach (harvestInit 1 [1, 1]) ⟨0, [.idle 1, .gfetching 1]⟩ :=
    HReach.tail _ _ _ r5 (HStep.gstart 0 [.idle 1, .acquired 1] 1 1 rfl)
  have r7 : HReach (harvestInit 1 [1, 1]) ⟨0, [.idle 1, .gdone 1]⟩ :=
    HReach.tail _ _ _ r6 (HStep.gend 0 [.idle 1, .gfetching 1] 1 1 rfl)
  have r8 : HReach (harvestInit 1 [1, 1]) ⟨1, [.idle 1, .idle 1]⟩ :=
    HReach.tail _ _ _ r7 (HStep.release 0 [.idle 1, .gdone 1] 1 1 rfl)
  have r9 : HReach (harvestInit 1 [1, 1]) ⟨1, [.ufetching 0, .idle 1]⟩ :=
    HReach.tail _ _ _ r8 (HStep.ustart 1 [.idle 1, .idle 1] 0 0 rfl)
  have r10 : HReach (harvestInit 1 [1, 1]) ⟨1, [.ufetching 0, .ufetching 0]⟩ :=
    HReach.tail _ _ _ r9 (HStep.ustart 1 [.ufetching 0, .idle 1] 1 0 rfl)
  have h2 := hcl 1 [1, 1] ⟨1, [.ufetching 0, .ufetching 0]⟩ r10
  have h3 : fetchCount ⟨1, [.ufetching 0, .ufetching 0]⟩ = 2 := by decide
  omega

/-- C2 (amended): only the scenario-page fetch performed inside
`fetch_scenario`'s `async with self.sem` block is gated: at most `N` such
page fetches are ever in flight at once, for any reachable harvest state.
The nested netflow-subpage fetch calls `fetch` directly without the
semaphore, so it is not gated and the total number of concurrent fetches
can exceed `N`. -/
theorem C2_amended (n : Nat) (ms : List Nat) (s : HState)
    (h : HReach (harvestInit n ms) s) : gatedFetchCount s ≤ n := by
  have hinit : HInv n (harvestInit n ms) := by
    unfold HInv holderCount harvestInit
    simp only
    rw [countP_start_zero]
    omega
  have hinv := hreach_inv n (harvestInit n ms) s h hinit
  have hle : gatedFetchCount s ≤ holderCount s := by
    unfold gatedFetchCount holderCount
    refine countP_le_countP isGFetch holdsSlot ?_ s.tasks
    intro a ha
    cases a <;> simp [isGFetch, holdsSlot] at ha ⊢
  unfold HInv at hinv
  omega

/-- Witness for C2's amended gate bound at the initial state of a
two-scenario harvest with limit 1. -/
theorem C2_witness : gatedFetchCount (harvestInit 1 [1, 1]) ≤ 1 :=
  C2_amended 1 [1, 1] (harvestInit 1 [1, 1]) (HReach.refl _)

end Ctu13










